import Mathlib

/-!
Shallow embedding of the logi-backend shipment service (Express + Supabase/Postgres).

Conventions of the embedding:
* JS numbers (prices, weights, distances) are modelled as integers (ℤ): every
  numeric constant in the modelled code is an integer, and the arithmetic
  claims are proved symbolically for all integer inputs; timestamps are
  integers counting days.
* `Option α` models a request-body/database field that may be absent; for request
  fields guarded by JS truthiness checks (`if (updates.x)`), `none` stands for an
  absent or falsy value.
* The database is modelled as in-memory lists of rows, with the constraints of
  `supabase/migration.sql` on the columns the handlers write: the CHECKs on
  `shipments.status`, `shipments.payment_status`, `shipments.service_type`,
  `shipments.package_type` and `payments.status`, and the
  `shipments.driver_id` foreign key into `drivers`.  A statement whose
  resulting rows violate a CHECK or the FK fails and leaves the table
  unchanged, exactly as in Postgres; `errorHandler.js` maps a Postgres
  foreign-key violation (code 23503) to HTTP 400 and leaves a CHECK violation
  at the default 500.
* Signature verification performed by the Stripe SDK / the Paystack HMAC is
  cryptography performed outside this repository; it is abstracted as the
  boolean outcome of the check.
-/

/-! ## Pricing (src/controllers/pricingController.js) -/

/-- A row of the `pricing_configs` table (the columns `calculatePriceInternal`
reads).  `id` is the column the query orders by descending. -/
structure PricingConfig where
  id : Nat
  service_type : String
  base_price : ℤ
  price_per_kg : ℤ
  price_per_km : ℤ
  is_active : Bool
deriving DecidableEq, Repr

/-- ASCII lowercase of one character (`String.prototype.toLowerCase` restricted
to the ASCII letters that the service-type names use). -/
def lowerChar (c : Char) : Char :=
  if 65 ≤ c.toNat ∧ c.toNat ≤ 90 then Char.ofNat (c.toNat + 32) else c

/-- `s.toLowerCase()` (ASCII). -/
def lowerStr (s : String) : String :=
  ⟨s.data.map lowerChar⟩

/-- `s.trim()`: strip leading and trailing whitespace. -/
def trimStr (s : String) : String :=
  ⟨((s.data.dropWhile Char.isWhitespace).reverse.dropWhile Char.isWhitespace).reverse⟩

/-- `serviceType ? serviceType.toLowerCase().trim() : 'standard'` — the only
falsy `String` is the empty string. -/
def normalizeServiceType (serviceType : String) : String :=
  if serviceType = "" then "standard" else trimStr (lowerStr serviceType)

/-- Postgres `ILIKE` with a wildcard-free pattern: case-insensitive equality.
(Service-type names contain no `%`/`_` wildcards.) -/
def ciEq (a b : String) : Bool :=
  lowerStr a = lowerStr b

/-- The rows the query
`.ilike('service_type', norm).eq('is_active', true)` retains. -/
def matchingConfigs (db : List PricingConfig) (norm : String) : List PricingConfig :=
  db.filter (fun r => r.is_active && ciEq r.service_type norm)

/-- `.order('id', { ascending: false }).limit(1).maybeSingle()`: the matching
row with the greatest `id`, or `none` when there is no match. -/
def pickLatest (l : List PricingConfig) : Option PricingConfig :=
  l.foldl (fun acc r =>
    match acc with
    | none => some r
    | some a => if a.id < r.id then some r else some a) none

/-- One entry of the static fallback price table (`{ base, kg, km }`). -/
structure Fallback where
  base : ℤ
  kg : ℤ
  km : ℤ
deriving DecidableEq, Repr

/-- `fallbacks.standard` from `calculatePriceInternal`. -/
def standardFallback : Fallback := { base := 1000, kg := 50, km := 10 }

/-- The static fallback table of `calculatePriceInternal`. -/
def fallbacks : List (String × Fallback) :=
  [("standard", standardFallback),
   ("express", { base := 2500, kg := 100, km := 20 }),
   ("5 tons", { base := 45000, kg := 50, km := 100 }),
   ("10 tons", { base := 85000, kg := 75, km := 150 }),
   ("15 tons", { base := 125000, kg := 100, km := 200 })]

/-- `calculatePriceInternal(serviceType, weight, distanceKm = 0)`.
`weight : Option ℤ` is the caller-supplied weight (`none` = missing);
`weight || 0` is `Option.getD 0`.  A database error is not modelled (it takes
the same branch as a missing row). -/
def calculatePriceInternal (db : List PricingConfig) (serviceType : String)
    (weight : Option ℤ) (distanceKm : ℤ := 0) : ℤ :=
  match pickLatest (matchingConfigs db (normalizeServiceType serviceType)) with
  | some data =>
      data.base_price + data.price_per_kg * weight.getD 0 +
        data.price_per_km * distanceKm
  | none =>
      let f := (fallbacks.lookup (lowerStr serviceType)).getD standardFallback
      f.base + f.kg * weight.getD 0 + f.km * distanceKm

/-! ## ETA (src/utils/trackingNumber.js, `calculateETA`) -/

/-- The `daysToAdd` table of `calculateETA`. -/
def daysToAdd : List (String × ℤ) :=
  [("express", 1), ("priority", 2), ("standard", 5), ("economy", 7)]

/-- `calculateETA(serviceType = 'standard')`: now plus
`daysToAdd[serviceType] || 5` days.  Time is counted in days. -/
def calculateETA (now : ℤ) (serviceType : String := "standard") : ℤ :=
  now + (daysToAdd.lookup serviceType).getD 5

/-! ## Pagination (src/utils/helpers.js, `parsePagination`;
    config limits from src/config/index.js) -/

def pagination_defaultPage : ℤ := 1
def pagination_defaultLimit : ℤ := 10
def pagination_maxLimit : ℤ := 100

/-- A request query after `parseInt`: `none` models an absent or non-numeric
(`NaN`) value. -/
structure PageQuery where
  page : Option ℤ
  limit : Option ℤ
deriving DecidableEq, Repr

/-- JS `x || d` on a parsed integer: `NaN` (here `none`) and `0` are falsy. -/
def jsOrInt (x : Option ℤ) (d : ℤ) : ℤ :=
  match x with
  | none => d
  | some v => if v = 0 then d else v

structure Pagination where
  page : ℤ
  limit : ℤ
  offset : ℤ
deriving DecidableEq, Repr

/-- `parsePagination(query)`. -/
def parsePagination (query : PageQuery) : Pagination :=
  let page := jsOrInt query.page pagination_defaultPage
  let limit := min (jsOrInt query.limit pagination_defaultLimit) pagination_maxLimit
  { page := page, limit := limit, offset := (page - 1) * limit }

/-! ## Key-case conversion (src/utils/helpers.js, `toSnakeCase` / `toCamelCase`)

Object keys are JS strings, modelled as lists of UTF-16 code units (`List ℕ`);
95 is `'_'`, 45 is `'-'`, 65–90 are `'A'`–`'Z'`, 97–122 are `'a'`–`'z'`.
An object is a list of key/value pairs with the insertion semantics of
`acc[key] = v`: overwrite in place when the key exists, append otherwise. -/

def isUpperCode (c : ℕ) : Bool := 65 ≤ c && c ≤ 90

def isLowerAZ (c : ℕ) : Bool := 97 ≤ c && c ≤ 122

def isLetterCode (c : ℕ) : Bool := isUpperCode c || isLowerAZ c

/-- `key.replace(/[A-Z]/g, letter => `_${letter.toLowerCase()}`)`. -/
def snakeKey : List ℕ → List ℕ
  | [] => []
  | c :: rest => (if isUpperCode c then [95, c + 32] else [c]) ++ snakeKey rest

/-- `key.replace(/([-_][a-z])/g, group =>
      group.toUpperCase().replace('-', '').replace('_', ''))`:
a left-to-right scan replacing each non-overlapping `[-_][a-z]` group by the
uppercased letter. -/
def camelKey : List ℕ → List ℕ
  | [] => []
  | [c] => [c]
  | c :: d :: rest =>
      if (c = 95 ∨ c = 45) ∧ isLowerAZ d then (d - 32) :: camelKey rest
      else c :: camelKey (d :: rest)

/-- `acc[key] = v` on a JS object. -/
def setKey {V : Type} (l : List (List ℕ × V)) (k : List ℕ) (v : V) :
    List (List ℕ × V) :=
  if k ∈ l.map Prod.fst then l.map (fun p => if p.1 = k then (k, v) else p)
  else l ++ [(k, v)]

/-- `Object.keys(obj).reduce((acc, key) => { acc[snake] = obj[key]; return acc }, {})`. -/
def toSnakeCase {V : Type} (obj : List (List ℕ × V)) : List (List ℕ × V) :=
  obj.foldl (fun acc p => setKey acc (snakeKey p.1) p.2) []

/-- Same reduce with the camel-case key transform. -/
def toCamelCase {V : Type} (obj : List (List ℕ × V)) : List (List ℕ × V) :=
  obj.foldl (fun acc p => setKey acc (camelKey p.1) p.2) []

/-! ## Shipment subsystem state

Rows of the `shipments`, `tracking_events` and `payments` tables
(`supabase/migration.sql`), restricted to the columns the modelled handlers
read or write.  Ids are the UUID strings Postgres generates. -/

/-- The seven-value `shipments.status` CHECK constraint
(migration.sql, `shipments` table) — also `config.shipmentStatus`. -/
def shipmentStatusList : List String :=
  ["pending", "processing", "in_transit", "out_for_delivery", "delivered",
   "cancelled", "returned"]

/-- The `shipments.payment_status` CHECK constraint. -/
def paymentStatusList : List String := ["unpaid", "paid", "refunded"]

/-- The `payments.status` CHECK constraint. -/
def paymentRowStatusList : List String :=
  ["pending", "succeeded", "failed", "refunded"]

/-- The `shipments.service_type` CHECK constraint (migration.sql line 169). -/
def serviceTypeList : List String :=
  ["express", "priority", "standard", "economy", "van", "truck", "motorcycle",
   "car", "5 tons", "10 tons", "15 tons"]

/-- The `shipments.package_type` CHECK constraint (migration.sql line 170). -/
def packageTypeList : List String :=
  ["envelope", "box", "parcel", "pallet", "heavy_load", "frozen foods",
   "pharmaceuticals", "general cargo"]

structure Shipment where
  id : String
  sender_id : String
  tracking_number : String
  origin : String
  destination : String
  receiver_name : String
  receiver_email : String
  receiver_phone : String
  weight : ℤ
  service_type : String
  package_type : String
  description : String
  special_instructions : String
  driver_id : Option String
  status : String
  payment_status : String
  estimated_delivery : ℤ
  shipping_fee : ℤ
  cancellation_reason : Option String
  updated_at : ℤ
deriving DecidableEq, Repr

structure TrackingEvent where
  shipment_id : String
  status : String
  location : Option String
  description : String
deriving DecidableEq, Repr

structure Payment where
  id : String
  shipment_id : String
  amount : ℤ
  status : String
  stripe_session_id : Option String
  stripe_payment_intent_id : Option String
  reference : Option String
  paystack_reference : Option String
  updated_at : ℤ
deriving DecidableEq, Repr

/-- The persistent state the modelled handlers touch.  `drivers` holds the
ids of the `drivers` table, the target of the `shipments.driver_id` foreign
key (migration.sql line 144). -/
structure ShipDB where
  shipments : List Shipment
  events : List TrackingEvent
  payments : List Payment
  pricing : List PricingConfig
  drivers : List String
deriving DecidableEq, Repr

/-- The CHECK constraints on the columns that cancellation and the webhook
cascades can change (`status`, `payment_status`); those handlers leave the
other CHECK-constrained columns untouched, and every stored row already
satisfies their constraints. -/
def validShipmentRow (s : Shipment) : Bool :=
  shipmentStatusList.contains s.status && paymentStatusList.contains s.payment_status

/-- All the CHECK constraints of a `shipments` row written by
`createShipment` / `updateShipment`, which also write `service_type` and
`package_type` (migration.sql lines 169-173). -/
def validFullShipmentRow (s : Shipment) : Bool :=
  validShipmentRow s && serviceTypeList.contains s.service_type &&
    packageTypeList.contains s.package_type

/-- The CHECK constraint of a `payments` row. -/
def validPaymentRow (p : Payment) : Bool :=
  paymentRowStatusList.contains p.status

/-- `.from('shipments').select(..).eq('id', id).single()`. -/
def findShipment (db : ShipDB) (id : String) : Option Shipment :=
  db.shipments.find? (fun s => s.id = id)

/-- A Postgres `UPDATE shipments SET .. WHERE id = id` whose caller ignores the
returned error: if every updated row satisfies the CHECK constraints the rows
are replaced, otherwise the statement fails and the table is unchanged. -/
def tryUpdateShipments (l : List Shipment) (id : String)
    (f : Shipment → Shipment) : List Shipment :=
  if (l.filter (fun s => s.id = id)).all (fun s => validShipmentRow (f s)) then
    l.map (fun s => if s.id = id then f s else s)
  else l

/-- Same for the `payments` table, with an arbitrary WHERE predicate. -/
def tryUpdatePayments (l : List Payment) (w : Payment → Bool)
    (f : Payment → Payment) : List Payment :=
  if (l.filter w).all (fun p => validPaymentRow (f p)) then
    l.map (fun p => if w p then f p else p)
  else l

/-! ## Shipment handlers (src/controllers/shipmentController.js) -/

/-- Body and auth context of a `PUT /api/shipments/:id` request
(`updateShipment`).  `weight` is `parseFloat(updates.weight)` when
`updates.weight` is truthy and parses. -/
structure UpdateReq where
  userId : String
  userRole : String
  id : String
  status : Option String
  receiverName : Option String
  receiverEmail : Option String
  receiverPhone : Option String
  weight : Option ℤ
  origin : Option String
  destination : Option String
  serviceType : Option String
  packageType : Option String
  description : Option String
  specialInstructions : Option String
  driverId : Option String
  location : Option String
  statusDescription : Option String
deriving DecidableEq, Repr

/-- The `dbUpdates` object of `updateShipment` applied to the fetched row:
each field is written only when the request value is truthy, `status` only for
non-`user` roles, `driver_id` only for admins; `shipping_fee` is recalculated
when weight or service type changed, `estimated_delivery` when the service
type changed. -/
def buildUpdatedShipment (pricing : List PricingConfig) (now : ℤ)
    (s : Shipment) (r : UpdateReq) : Shipment :=
  let newWeight := r.weight.getD s.weight
  let newServiceType := r.serviceType.getD s.service_type
  { s with
    status := match r.status with
      | some v => if r.userRole = "user" then s.status else v
      | none => s.status
    receiver_name := r.receiverName.getD s.receiver_name
    receiver_email := r.receiverEmail.getD s.receiver_email
    receiver_phone := r.receiverPhone.getD s.receiver_phone
    weight := newWeight
    origin := r.origin.getD s.origin
    destination := r.destination.getD s.destination
    service_type := newServiceType
    package_type := r.packageType.getD s.package_type
    description := r.description.getD s.description
    special_instructions := r.specialInstructions.getD s.special_instructions
    driver_id := match r.driverId with
      | some v => if r.userRole = "admin" then some v else s.driver_id
      | none => s.driver_id
    shipping_fee :=
      if r.weight.isSome || r.serviceType.isSome then
        calculatePriceInternal pricing newServiceType (some newWeight)
      else s.shipping_fee
    estimated_delivery :=
      if r.serviceType.isSome then calculateETA now newServiceType
      else s.estimated_delivery
    updated_at := now }

/-- The tracking event `updateShipment` inserts when the request body carries a
status.  `data.destination` is the destination of the updated row. -/
def updateTrackingEvent (updated : Shipment) (r : UpdateReq) (v : String) :
    TrackingEvent :=
  { shipment_id := r.id
    status := v
    location := some (r.location.getD updated.destination)
    description := r.statusDescription.getD ("Status updated to " ++ v) }

/-- The `shipments.driver_id` foreign key holds for an update request:
`updateShipment` puts `driver_id` in the SET list only for an admin with a
truthy `driverId`, and Postgres then requires the new value to reference an
existing `drivers` row (migration.sql line 144). -/
def driverIdFkOk (db : ShipDB) (r : UpdateReq) : Bool :=
  match r.driverId with
  | some d => if r.userRole = "admin" then db.drivers.contains d else true
  | none => true

/-- `updateShipment`.  Returns the HTTP status code and the new state.  A
CHECK violation of the UPDATE surfaces as the `errorHandler` default 500, a
`driver_id` foreign-key violation as 400 (Postgres code 23503); in both cases
the statement fails, the table is unchanged, and the thrown error skips the
tracking-event insert. -/
def updateShipmentOp (db : ShipDB) (now : ℤ) (r : UpdateReq) : ℕ × ShipDB :=
  match findShipment db r.id with
  | none => (404, db)
  | some s =>
    if r.userRole = "user" ∧ s.sender_id ≠ r.userId then (403, db)
    else if r.userRole = "user" ∧ s.status ≠ "pending" then (400, db)
    else
      let s2 := buildUpdatedShipment db.pricing now s r
      if validFullShipmentRow s2 then
        if driverIdFkOk db r then
          let db2 := { db with
            shipments := db.shipments.map (fun t => if t.id = r.id then s2 else t) }
          match r.status with
          | some v =>
              (200, { db2 with events := db2.events ++ [updateTrackingEvent s2 r v] })
          | none => (200, db2)
        else (400, db)
      else (500, db)

/-- Body and auth context of `POST /api/shipments/:id/cancel`
(`cancelShipment`). -/
structure CancelReq where
  userId : String
  userRole : String
  id : String
  reason : Option String
deriving DecidableEq, Repr

/-- The row written by `cancelShipment` (a Supabase `update` payload drops
`undefined` values, so an absent reason leaves `cancellation_reason`
untouched). -/
def cancelledShipment (now : ℤ) (s : Shipment) (r : CancelReq) : Shipment :=
  { s with
    status := "cancelled"
    cancellation_reason := match r.reason with
      | some v => some v
      | none => s.cancellation_reason
    updated_at := now }

/-- The tracking event `cancelShipment` inserts. -/
def cancelTrackingEvent (r : CancelReq) : TrackingEvent :=
  { shipment_id := r.id
    status := "cancelled"
    location := none
    description := "Shipment cancelled: " ++ r.reason.getD "No reason provided" }

/-- `cancelShipment`. -/
def cancelShipmentOp (db : ShipDB) (now : ℤ) (r : CancelReq) : ℕ × ShipDB :=
  match findShipment db r.id with
  | none => (404, db)
  | some s =>
    if s.sender_id ≠ r.userId ∧ r.userRole ≠ "admin" then (403, db)
    else if s.status = "delivered" ∨ s.status = "cancelled" then (400, db)
    else
      let s2 := cancelledShipment now s r
      if validShipmentRow s2 then
        (200, { db with
          shipments := db.shipments.map (fun t => if t.id = r.id then s2 else t)
          events := db.events ++ [cancelTrackingEvent r] })
      else (500, db)

/-- Body and auth context of `POST /api/shipments` (`createShipment`).
`weight` is the `parseFloat` of the request weight (`none` = `NaN`); optional
strings are `none` when absent or falsy. -/
structure CreateReq where
  senderId : String
  origin : String
  destination : String
  receiverName : String
  receiverEmail : String
  receiverPhone : String
  weight : Option ℤ
  serviceType : Option String
  packageType : Option String
  description : String
  specialInstructions : String
deriving DecidableEq, Repr

/-- The row `createShipment` inserts (id and tracking number are generated;
`status` is `config.shipmentStatus.PENDING`, `payment_status` takes the column
default `'unpaid'`). -/
def newShipmentRow (pricing : List PricingConfig) (now : ℤ)
    (newId trackingNumber : String) (r : CreateReq) (w : ℤ) : Shipment :=
  { id := newId
    sender_id := r.senderId
    tracking_number := trackingNumber
    origin := r.origin
    destination := r.destination
    receiver_name := r.receiverName
    receiver_email := r.receiverEmail
    receiver_phone := r.receiverPhone
    weight := w
    service_type := r.serviceType.getD "standard"
    package_type := r.packageType.getD "parcel"
    description := r.description
    special_instructions := r.specialInstructions
    driver_id := none
    status := "pending"
    payment_status := "unpaid"
    estimated_delivery := calculateETA now (r.serviceType.getD "standard")
    shipping_fee := calculatePriceInternal pricing (r.serviceType.getD "standard") (some w)
    cancellation_reason := none
    updated_at := now }

/-- The initial tracking event `createShipment` inserts. -/
def createTrackingEvent (newId : String) (r : CreateReq) : TrackingEvent :=
  { shipment_id := newId
    status := "pending"
    location := some r.origin
    description := "Shipment created and pending pickup" }

/-- `createShipment`.  `!parsedWeight || parsedWeight <= 0` rejects `NaN`, `0`
and negative weights with a 400. -/
def createShipmentOp (db : ShipDB) (now : ℤ) (newId trackingNumber : String)
    (r : CreateReq) : ℕ × ShipDB :=
  match r.weight with
  | none => (400, db)
  | some w =>
    if w ≤ 0 then (400, db)
    else
      let row := newShipmentRow db.pricing now newId trackingNumber r w
      if validFullShipmentRow row then
        (201, { db with
          shipments := db.shipments ++ [row]
          events := db.events ++ [createTrackingEvent newId r] })
      else (500, db)

/-! ## Payment webhooks (Stripe controller; Paystack controller) -/

/-- A Stripe webhook request after body parsing.  `sigValid` is the outcome of
`stripe.webhooks.constructEvent` (signature verification); `shipmentId` is
`event.data.object.metadata.shipmentId`. -/
structure StripeWebhookReq where
  sigValid : Bool
  eventType : String
  sessionId : String
  paymentIntent : String
  shipmentId : String
deriving DecidableEq, Repr

/-- The tracking event the Stripe handler inserts. -/
def stripeTrackingEvent (shipmentId : String) : TrackingEvent :=
  { shipment_id := shipmentId
    status := "processing"
    location := some "System"
    description := "Payment verified. Shipment moved to processing." }

/-- `handleStripeWebhook`: on a bad signature respond 400 and stop; on
`checkout.session.completed` mark the payment row succeeded, set the shipment
to `payment_status 'paid'` / `status 'processing'`, and insert one tracking
event (the handler never reads the errors of these updates). -/
def handleStripeWebhookOp (db : ShipDB) (now : ℤ) (r : StripeWebhookReq) :
    ℕ × ShipDB :=
  if !r.sigValid then (400, db)
  else if r.eventType = "checkout.session.completed" then
    (200, { db with
      payments := tryUpdatePayments db.payments
        (fun p => p.stripe_session_id = some r.sessionId)
        (fun p => { p with
          status := "succeeded"
          stripe_payment_intent_id := some r.paymentIntent
          updated_at := now })
      shipments := tryUpdateShipments db.shipments r.shipmentId
        (fun s => { s with
          payment_status := "paid"
          status := "processing"
          updated_at := now })
      events := db.events ++ [stripeTrackingEvent r.shipmentId] })
  else (200, db)

/-- A Paystack webhook request.  `sigValid` is the comparison of the sha512
HMAC of the body with the `x-paystack-signature` header; `shipmentId` is
`event.data.metadata?.shipment_id`. -/
structure PaystackWebhookReq where
  sigValid : Bool
  eventName : String
  reference : String
  shipmentId : Option String
deriving DecidableEq, Repr

/-- The tracking event the Paystack handler inserts. -/
def paystackTrackingEvent (shipmentId : String) : TrackingEvent :=
  { shipment_id := shipmentId
    status := "confirmed"
    location := some "System"
    description := "Payment verified via webhook. Shipment confirmed." }

/-- `handlePaystackWebhook`: on a bad signature respond 401 and stop; on
`charge.success` with a `shipment_id` in the metadata, mark the payment row
succeeded, attempt to set the shipment to `payment_status 'paid'` /
`status 'confirmed'`, and insert one tracking event (the handler never reads
the errors of these updates; `'confirmed'` violates the `shipments.status`
CHECK, so that UPDATE is rejected by the database). -/
def handlePaystackWebhookOp (db : ShipDB) (now : ℤ) (r : PaystackWebhookReq) :
    ℕ × ShipDB :=
  if !r.sigValid then (401, db)
  else if r.eventName = "charge.success" then
    match r.shipmentId with
    | none => (200, db)
    | some sid =>
      (200, { db with
        payments := tryUpdatePayments db.payments
          (fun p => p.reference = some r.reference)
          (fun p => { p with
            status := "succeeded"
            paystack_reference := some r.reference
            updated_at := now })
        shipments := tryUpdateShipments db.shipments sid
          (fun s => { s with
            payment_status := "paid"
            status := "confirmed"
            updated_at := now })
        events := db.events ++ [paystackTrackingEvent sid] })
  else (200, db)

/-! ## Concrete instances used by witnesses and counterexamples -/

/-- An active pricing row used by the C1 witness. -/
def expressCfg : PricingConfig :=
  { id := 1, service_type := "Express", base_price := 7, price_per_kg := 1,
    price_per_km := 2, is_active := true }

/-- A pending, unpaid shipment of sender `u1`. -/
def pendingShipment : Shipment :=
  { id := "s1", sender_id := "u1", tracking_number := "BLY-20260101-AAAAA",
    origin := "Lagos", destination := "Abuja", receiver_name := "R",
    receiver_email := "r@x.com", receiver_phone := "080", weight := 10,
    service_type := "standard", package_type := "parcel", description := "d",
    special_instructions := "", driver_id := none, status := "pending",
    payment_status := "unpaid", estimated_delivery := 5, shipping_fee := 1500,
    cancellation_reason := none, updated_at := 0 }

/-- A pending payment row for `pendingShipment` created by the Paystack
`initializePayment` flow. -/
def pendingPayment : Payment :=
  { id := "p1", shipment_id := "s1", amount := 1500, status := "pending",
    stripe_session_id := none, stripe_payment_intent_id := none,
    reference := some "ref1", paystack_reference := none, updated_at := 0 }

/-- State holding just `pendingShipment`. -/
def dbPending : ShipDB :=
  { shipments := [pendingShipment], events := [], payments := [pendingPayment],
    pricing := [], drivers := [] }

/-- An update request in which the sender (`role 'user'`) of `s1` sends a new
status: the status write is skipped but a tracking event is still inserted. -/
def userStatusUpdateReq : UpdateReq :=
  { userId := "u1", userRole := "user", id := "s1",
    status := some "in_transit", receiverName := none, receiverEmail := none,
    receiverPhone := none, weight := none, origin := none, destination := none,
    serviceType := none, packageType := none, description := none,
    specialInstructions := none, driverId := none, location := none,
    statusDescription := none }

/-- A signature-verified Paystack `charge.success` webhook for `s1`. -/
def paystackSuccessReq : PaystackWebhookReq :=
  { sigValid := true, eventName := "charge.success", reference := "ref1",
    shipmentId := some "s1" }

/-- The statuses of all shipment rows, in table order. -/
def shipStatuses (db : ShipDB) : List String :=
  db.shipments.map Shipment.status

/-- An admin update request changing the status of `s1`. -/
def adminStatusUpdateReq : UpdateReq :=
  { userStatusUpdateReq with userId := "a1", userRole := "admin" }

/-- The sender of `s1` cancels it with a reason. -/
def senderCancelReq : CancelReq :=
  { userId := "u1", userRole := "user", id := "s1", reason := some "changed plans" }

/-- A signature-verified completed Stripe checkout session for `s1`. -/
def stripeSuccessReq : StripeWebhookReq :=
  { sigValid := true, eventType := "checkout.session.completed",
    sessionId := "sess1", paymentIntent := "pi1", shipmentId := "s1" }

/-! # Theorems -/

/-! ## Pricing -/

theorem pickLatest_eq_some_mem {l : List PricingConfig} {r : PricingConfig} :
    pickLatest l = some r → r ∈ l := by
  suffices h : ∀ (l : List PricingConfig) (acc : Option PricingConfig),
      (l.foldl (fun acc r =>
        match acc with
        | none => some r
        | some a => if a.id < r.id then some r else some a) acc) = some r →
      acc = some r ∨ r ∈ l by
    intro hfold
    rcases h l none hfold with h1 | h2
    · exact absurd h1 (by simp)
    · exact h2
  intro l
  induction l with
  | nil => intro acc h; exact Or.inl h
  | cons x xs ih =>
    intro acc h
    rcases ih _ h with h1 | h2
    · match acc with
      | none =>
        simp only at h1
        exact Or.inr (by simp [← Option.some_inj.mp h1])
      | some a =>
        simp only at h1
        by_cases hlt : a.id < x.id
        · rw [if_pos hlt] at h1
          exact Or.inr (by simp [← Option.some_inj.mp h1])
        · rw [if_neg hlt] at h1
          exact Or.inl h1
    · exact Or.inr (List.mem_cons_of_mem _ h2)

/-- C1: for every service type for which an active pricing record exists
(`is_active = true`, name matched case-insensitively against the normalized
service type), the computed shipment fee is
`base_price + price_per_kg * weight + price_per_km * distanceKm` of the
selected record, with a missing weight counting as 0 and `distanceKm`
defaulting to 0. -/
theorem C1_active_pricing_fee (db : List PricingConfig) (serviceType : String)
    (weight : Option ℤ) (distanceKm : ℤ) (rec : PricingConfig)
    (h : pickLatest (matchingConfigs db (normalizeServiceType serviceType)) = some rec) :
    rec.is_active = true ∧
    ciEq rec.service_type (normalizeServiceType serviceType) = true ∧
    calculatePriceInternal db serviceType weight distanceKm =
      rec.base_price + rec.price_per_kg * weight.getD 0 +
        rec.price_per_km * distanceKm := by
  have hmem := pickLatest_eq_some_mem h
  rw [matchingConfigs, List.mem_filter] at hmem
  have hprops := hmem.2
  rw [Bool.and_eq_true] at hprops
  refine ⟨hprops.1, hprops.2, ?_⟩
  rw [calculatePriceInternal, h]

theorem C1_witness :
    pickLatest (matchingConfigs [expressCfg] (normalizeServiceType "EXPRESS")) =
      some expressCfg ∧
    calculatePriceInternal [expressCfg] "EXPRESS" (some 10) 2 = 7 + 1 * 10 + 2 * 2 :=
  ⟨by decide,
   (C1_active_pricing_fee [expressCfg] "EXPRESS" (some 10) 2 expressCfg (by decide)).2.2⟩

/-- C2: when no active pricing record matches the service type, the fee comes
from the static fallback table keyed by the lowercased service type, with the
standard entry as default, under the same
`base + kg * weight + km * distance` formula. -/
theorem C2_fallback_fee (db : List PricingConfig) (serviceType : String)
    (weight : Option ℤ) (distanceKm : ℤ)
    (h : matchingConfigs db (normalizeServiceType serviceType) = []) :
    (∀ f, fallbacks.lookup (lowerStr serviceType) = some f →
      calculatePriceInternal db serviceType weight distanceKm =
        f.base + f.kg * weight.getD 0 + f.km * distanceKm) ∧
    (fallbacks.lookup (lowerStr serviceType) = none →
      calculatePriceInternal db serviceType weight distanceKm =
        standardFallback.base + standardFallback.kg * weight.getD 0 +
          standardFallback.km * distanceKm) := by
  have hp : pickLatest (matchingConfigs db (normalizeServiceType serviceType)) = none := by
    rw [h]; rfl
  constructor
  · intro f hf
    rw [calculatePriceInternal, hp]
    simp only [hf, Option.getD_some]
  · intro hn
    rw [calculatePriceInternal, hn]
    simp only [hp, Option.getD_none]

theorem C2_witness :
    matchingConfigs [] (normalizeServiceType "10 Tons") = [] ∧
    fallbacks.lookup (lowerStr "10 Tons") =
      some { base := 85000, kg := 75, km := 150 } ∧
    calculatePriceInternal [] "10 Tons" (some 2) 3 = 85000 + 75 * 2 + 150 * 3 :=
  ⟨rfl, by decide,
   (C2_fallback_fee [] "10 Tons" (some 2) 3 rfl).1
     { base := 85000, kg := 75, km := 150 } (by decide)⟩

/-! ## ETA (claim C3) -/

/-- C3 as stated is false: it requires the day offset of every service type to
be an entry of the 4-entry `daysToAdd` table, but `calculateETA` is defined
(with the default offset 5) for service types outside the table — e.g. the
service type `'5 tons'`, which this system actively uses. -/
theorem C3_counterexample :
    ¬ ∀ serviceType : String, ∃ d : ℤ,
        daysToAdd.lookup serviceType = some d ∧
        ∀ now : ℤ, calculateETA now serviceType = now + d := by
  intro h
  obtain ⟨d, hd, _⟩ := h "5 tons"
  have hn : daysToAdd.lookup "5 tons" = none := by decide
  rw [hn] at hd
  exact Option.noConfusion hd

/-- C3 (amended): the estimated delivery date is the current time plus the day
offset of the 4-entry `daysToAdd` table (express 1, priority 2, standard 5,
economy 7), with a default offset of 5 days for service types outside the
table; this value is stored on shipment creation and recomputed by
`updateShipment` when the service type changes. -/
theorem C3_eta_amended (now : ℤ) (serviceType : String) :
    (∀ d, daysToAdd.lookup serviceType = some d →
      calculateETA now serviceType = now + d) ∧
    (daysToAdd.lookup serviceType = none → calculateETA now serviceType = now + 5) ∧
    (∀ pricing newId trackingNumber (r : CreateReq) w,
      (newShipmentRow pricing now newId trackingNumber r w).estimated_delivery =
        calculateETA now (r.serviceType.getD "standard")) ∧
    (∀ pricing (s : Shipment) (r : UpdateReq) v, r.serviceType = some v →
      (buildUpdatedShipment pricing now s r).estimated_delivery =
        calculateETA now v) := by
  refine ⟨?_, ?_, ?_, ?_⟩
  · intro d hd
    rw [calculateETA, hd, Option.getD_some]
  · intro hn
    rw [calculateETA, hn, Option.getD_none]
  · intro pricing newId trackingNumber r w
    rfl
  · intro pricing s r v hv
    simp [buildUpdatedShipment, hv]

theorem C3_witness :
    daysToAdd.lookup "express" = some 1 ∧ calculateETA 0 "express" = 0 + 1 :=
  ⟨by decide, (C3_eta_amended 0 "express").1 1 (by decide)⟩

/-! ## Pagination (claim C8) -/

/-- C8: the page size computed by `parsePagination` never exceeds the
configured maximum of 100, the offset always equals `(page - 1) * limit`, and
an absent or non-numeric page/limit defaults to 1/10. -/
theorem C8_pagination (query : PageQuery) :
    (parsePagination query).limit ≤ pagination_maxLimit ∧
    pagination_maxLimit = 100 ∧
    (parsePagination query).offset =
      ((parsePagination query).page - 1) * (parsePagination query).limit ∧
    (query.page = none → (parsePagination query).page = pagination_defaultPage) ∧
    (query.limit = none → (parsePagination query).limit = pagination_defaultLimit) := by
  refine ⟨min_le_right _ _, rfl, rfl, ?_, ?_⟩
  · intro h
    simp [parsePagination, jsOrInt, h]
  · intro h
    simp [parsePagination, jsOrInt, h, pagination_defaultLimit, pagination_maxLimit]

theorem C8_witness :
    (parsePagination { page := none, limit := none }).page = pagination_defaultPage ∧
    (parsePagination { page := none, limit := none }).limit = pagination_defaultLimit :=
  ⟨(C8_pagination { page := none, limit := none }).2.2.2.1 rfl,
   (C8_pagination { page := none, limit := none }).2.2.2.2 rfl⟩

/-! ## Key-case conversion (claim C9) -/

theorem snakeKey_ne_nil {k : List ℕ} (h : k ≠ []) : snakeKey k ≠ [] := by
  match k with
  | [] => exact absurd rfl h
  | c :: rest =>
    rw [snakeKey]
    by_cases hu : isUpperCode c
    · simp [hu]
    · simp [hu]

/-- Key-level roundtrip: on keys made only of ASCII letters,
`camelKey ∘ snakeKey` is the identity. -/
theorem camelKey_snakeKey {k : List ℕ} (h : ∀ c ∈ k, isLetterCode c = true) :
    camelKey (snakeKey k) = k := by
  induction k with
  | nil => rfl
  | cons c rest ih =>
    have hc : isLetterCode c = true := h c (List.mem_cons_self c rest)
    have hrest : ∀ x ∈ rest, isLetterCode x = true :=
      fun x hx => h x (List.mem_cons_of_mem c hx)
    by_cases hu : isUpperCode c = true
    · have h1 : snakeKey (c :: rest) = 95 :: (c + 32) :: snakeKey rest := by
        rw [snakeKey, if_pos hu]; rfl
      have hlow : isLowerAZ (c + 32) = true := by
        simp only [isUpperCode, Bool.and_eq_true, decide_eq_true_eq] at hu
        simp only [isLowerAZ, Bool.and_eq_true, decide_eq_true_eq]
        omega
      rw [h1, camelKey, if_pos ⟨Or.inl rfl, hlow⟩, ih hrest]
      have : c + 32 - 32 = c := by omega
      rw [this]
    · have hl : isLowerAZ c = true := by
        simp only [isLetterCode, Bool.or_eq_true] at hc
        exact hc.resolve_left hu
      have h1 : snakeKey (c :: rest) = c :: snakeKey rest := by
        rw [snakeKey, if_neg hu]; rfl
      rw [h1]
      match hr : snakeKey rest with
      | [] =>
        have : rest = [] := by
          by_contra hne
          exact snakeKey_ne_nil hne hr
        rw [this, camelKey]
      | d :: t =>
        have hguard : ¬ ((c = 95 ∨ c = 45) ∧ isLowerAZ d = true) := by
          simp only [isLowerAZ, Bool.and_eq_true, decide_eq_true_eq] at hl ⊢
          omega
        rw [camelKey, if_neg hguard, ← hr, ih hrest]

/-- The fold of `setKey` over fresh keys appends in order. -/
theorem foldl_setKey_map {V : Type} (F : List ℕ → List ℕ) :
    ∀ (l : List (List ℕ × V)) (acc : List (List ℕ × V)),
      (l.map (fun p => F p.1)).Nodup →
      (∀ p ∈ l, F p.1 ∉ acc.map Prod.fst) →
      l.foldl (fun acc p => setKey acc (F p.1) p.2) acc =
        acc ++ l.map (fun p => (F p.1, p.2)) := by
  intro l
  induction l with
  | nil => intro acc _ _; simp
  | cons p ps ih =>
    intro acc hnd hfresh
    have hstep : setKey acc (F p.1) p.2 = acc ++ [(F p.1, p.2)] := by
      rw [setKey, if_neg (hfresh p (List.mem_cons_self p ps))]
    have hnd' : (ps.map (fun q => F q.1)).Nodup := (List.nodup_cons.mp hnd).2
    have hnotin : F p.1 ∉ ps.map (fun q => F q.1) := (List.nodup_cons.mp hnd).1
    have hfresh' : ∀ q ∈ ps, F q.1 ∉ (acc ++ [(F p.1, p.2)]).map Prod.fst := by
      intro q hq
      rw [List.map_append, List.mem_append]
      rintro (h1 | h2)
      · exact hfresh q (List.mem_cons_of_mem p hq) h1
      · simp only [List.map_cons, List.map_nil, List.mem_singleton] at h2
        exact hnotin (h2 ▸ List.mem_map_of_mem (fun q => F q.1) hq)
    calc (p :: ps).foldl (fun acc p => setKey acc (F p.1) p.2) acc
        = ps.foldl (fun acc p => setKey acc (F p.1) p.2) (acc ++ [(F p.1, p.2)]) := by
          rw [List.foldl_cons, hstep]
      _ = acc ++ [(F p.1, p.2)] ++ ps.map (fun q => (F q.1, q.2)) := ih _ hnd' hfresh'
      _ = acc ++ (p :: ps).map (fun q => (F q.1, q.2)) := by simp

/-- C9: for an object whose keys consist only of letters, contain no
underscore or hyphen, and do not begin with an uppercase letter (keys of a JS
object are pairwise distinct), converting the keys to snake_case and back to
camelCase yields the original object. -/
theorem C9_snake_camel_roundtrip {V : Type} (obj : List (List ℕ × V))
    (hletters : ∀ p ∈ obj, ∀ c ∈ p.1, isLetterCode c = true)
    (hnosep : ∀ p ∈ obj, ∀ c ∈ p.1, c ≠ 95 ∧ c ≠ 45)
    (hhead : ∀ p ∈ obj, ∀ c ∈ p.1.take 1, isUpperCode c = false)
    (hnd : (obj.map Prod.fst).Nodup) :
    toCamelCase (toSnakeCase obj) = obj := by
  have hround : ∀ p ∈ obj, camelKey (snakeKey p.1) = p.1 :=
    fun p hp => camelKey_snakeKey (hletters p hp)
  have hsnd : (obj.map (fun p => snakeKey p.1)).Nodup := by
    have : obj.map (fun p => snakeKey p.1) = (obj.map Prod.fst).map snakeKey := by
      rw [List.map_map]; rfl
    rw [this]
    refine List.Nodup.map_on ?_ hnd
    intro x hx y hy hxy
    obtain ⟨px, hpx, hpx1⟩ := List.mem_map.mp hx
    obtain ⟨py, hpy, hpy1⟩ := List.mem_map.mp hy
    have h1 : camelKey (snakeKey x) = x := by rw [← hpx1]; exact hround px hpx
    have h2 : camelKey (snakeKey y) = y := by rw [← hpy1]; exact hround py hpy
    calc x = camelKey (snakeKey x) := h1.symm
      _ = camelKey (snakeKey y) := by rw [hxy]
      _ = y := h2
  have hsnake : toSnakeCase obj = obj.map (fun p => (snakeKey p.1, p.2)) := by
    rw [toSnakeCase]
    have := foldl_setKey_map (V := V) snakeKey obj [] hsnd (by simp)
    simpa using this
  have hcnd : ((obj.map (fun p => (snakeKey p.1, p.2))).map
      (fun p => camelKey p.1)).Nodup := by
    rw [List.map_map]
    have heq : obj.map ((fun p : List ℕ × V => camelKey p.1) ∘
        (fun p : List ℕ × V => (snakeKey p.1, p.2))) = obj.map Prod.fst := by
      refine List.map_congr_left ?_
      intro p hp
      exact hround p hp
    rw [heq]
    exact hnd
  rw [hsnake, toCamelCase]
  have hfold := foldl_setKey_map (V := V) camelKey
    (obj.map (fun p => (snakeKey p.1, p.2))) [] hcnd (by simp)
  simp only [List.nil_append] at hfold
  rw [hfold, List.map_map]
  have : obj.map ((fun p : List ℕ × V => (camelKey p.1, p.2)) ∘
      (fun p : List ℕ × V => (snakeKey p.1, p.2))) = obj.map (fun p => (p.1, p.2)) := by
    refine List.map_congr_left ?_
    intro p hp
    simp only [Function.comp_apply]
    rw [hround p hp]
  rw [this]
  simp

/-- The keys `receiverName` and `origin` as code-unit lists. -/
def receiverNameKey : List ℕ := [114, 101, 99, 101, 105, 118, 101, 114, 78, 97, 109, 101]

def originKey : List ℕ := [111, 114, 105, 103, 105, 110]

theorem C9_witness :
    toCamelCase (toSnakeCase [(receiverNameKey, (1 : ℤ)), (originKey, 2)]) =
      [(receiverNameKey, (1 : ℤ)), (originKey, 2)] :=
  C9_snake_camel_roundtrip [(receiverNameKey, (1 : ℤ)), (originKey, 2)]
    (by decide) (by decide) (by decide) (by decide)

/-! ## Shipment status invariant (claim C4) -/

theorem validShipmentRow_status_mem {s : Shipment}
    (h : validShipmentRow s = true) : s.status ∈ shipmentStatusList := by
  rw [validShipmentRow, Bool.and_eq_true] at h
  simpa using h.1

theorem validFullShipmentRow_valid {s : Shipment}
    (h : validFullShipmentRow s = true) : validShipmentRow s = true := by
  rw [validFullShipmentRow, Bool.and_eq_true, Bool.and_eq_true] at h
  exact h.1.1

theorem tryUpdateShipments_mem {l : List Shipment} {id : String}
    {f : Shipment → Shipment} {t : Shipment}
    (h : t ∈ tryUpdateShipments l id f) :
    t ∈ l ∨ validShipmentRow t = true := by
  rw [tryUpdateShipments] at h
  split at h
  case isTrue hall =>
    obtain ⟨s, hs, heq⟩ := List.mem_map.mp h
    by_cases hid : s.id = id
    · right
      rw [if_pos hid] at heq
      have hsf : s ∈ l.filter (fun s => s.id = id) :=
        List.mem_filter.mpr ⟨hs, by simp [hid]⟩
      have := List.all_eq_true.mp hall s hsf
      rwa [heq] at this
    · left
      rw [if_neg hid] at heq
      rwa [heq] at hs
  case isFalse => exact Or.inl h

theorem map_replace_status_mem {l : List Shipment} {id : String}
    {s2 t : Shipment} (hinv : ∀ s ∈ l, s.status ∈ shipmentStatusList)
    (hvalid : validShipmentRow s2 = true)
    (h : t ∈ l.map (fun u => if u.id = id then s2 else u)) :
    t.status ∈ shipmentStatusList := by
  obtain ⟨u, hu, heq⟩ := List.mem_map.mp h
  by_cases hid : u.id = id
  · rw [if_pos hid] at heq
    exact heq ▸ validShipmentRow_status_mem hvalid
  · rw [if_neg hid] at heq
    exact heq ▸ hinv u hu

/-- C4: every operation that writes a shipment status — creation, update,
cancellation, and the Stripe/Paystack webhook cascade updates — preserves the
invariant that every shipment's `status` is one of the seven enum values of
the `shipments.status` CHECK constraint.  (Writes outside the enum, such as
the Paystack webhook's `'confirmed'`, are rejected by the database and leave
the rows unchanged.) -/
theorem C4_status_invariant (db : ShipDB) (now : ℤ)
    (newId trackingNumber : String) (rc : CreateReq) (ru : UpdateReq)
    (rx : CancelReq) (rs : StripeWebhookReq) (rp : PaystackWebhookReq)
    (hinv : ∀ s ∈ db.shipments, s.status ∈ shipmentStatusList) :
    (∀ s ∈ (createShipmentOp db now newId trackingNumber rc).2.shipments,
      s.status ∈ shipmentStatusList) ∧
    (∀ s ∈ (updateShipmentOp db now ru).2.shipments,
      s.status ∈ shipmentStatusList) ∧
    (∀ s ∈ (cancelShipmentOp db now rx).2.shipments,
      s.status ∈ shipmentStatusList) ∧
    (∀ s ∈ (handleStripeWebhookOp db now rs).2.shipments,
      s.status ∈ shipmentStatusList) ∧
    (∀ s ∈ (handlePaystackWebhookOp db now rp).2.shipments,
      s.status ∈ shipmentStatusList) := by
  refine ⟨?_, ?_, ?_, ?_, ?_⟩
  · rw [createShipmentOp]
    match rc.weight with
    | none => exact hinv
    | some w =>
      simp only
      split
      · exact hinv
      · split
        case isTrue hvalid =>
          intro s hs
          rcases List.mem_append.mp hs with h1 | h2
          · exact hinv s h1
          · rw [List.mem_singleton.mp h2]
            exact validShipmentRow_status_mem (validFullShipmentRow_valid hvalid)
        case isFalse => exact hinv
  · rw [updateShipmentOp]
    match findShipment db ru.id with
    | none => exact hinv
    | some s =>
      simp only
      split
      · exact hinv
      · split
        · exact hinv
        · split
          case isTrue hvalid =>
            split
            · match ru.status with
              | some v =>
                exact fun t ht =>
                  map_replace_status_mem hinv (validFullShipmentRow_valid hvalid) ht
              | none =>
                exact fun t ht =>
                  map_replace_status_mem hinv (validFullShipmentRow_valid hvalid) ht
            · exact hinv
          case isFalse => exact hinv
  · rw [cancelShipmentOp]
    match findShipment db rx.id with
    | none => exact hinv
    | some s =>
      simp only
      split
      · exact hinv
      · split
        · exact hinv
        · split
          case isTrue hvalid =>
            exact fun t ht => map_replace_status_mem hinv hvalid ht
          case isFalse => exact hinv
  · rw [handleStripeWebhookOp]
    split
    · exact hinv
    · split
      · intro t ht
        rcases tryUpdateShipments_mem ht with h1 | h2
        · exact hinv t h1
        · exact validShipmentRow_status_mem h2
      · exact hinv
  · rw [handlePaystackWebhookOp]
    split
    · exact hinv
    · split
      · match rp.shipmentId with
        | none => exact hinv
        | some sid =>
          intro t ht
          rcases tryUpdateShipments_mem ht with h1 | h2
          · exact hinv t h1
          · exact validShipmentRow_status_mem h2
      · exact hinv

theorem C4_witness :
    pendingShipment.status ∈ shipmentStatusList :=
  (C4_status_invariant dbPending 1 "s2" "BLY-20260102-BBBBB"
    { senderId := "u1", origin := "A", destination := "B", receiverName := "R",
      receiverEmail := "r@x.com", receiverPhone := "080", weight := some 4,
      serviceType := some "express", packageType := none, description := "",
      specialInstructions := "" }
    userStatusUpdateReq senderCancelReq stripeSuccessReq paystackSuccessReq
    (by decide)).2.2.2.2 pendingShipment (by decide)

/-! ## Update authorization (claim C5) -/

/-- C5: `updateShipment` is role-gated — a `'user'` caller is rejected with
403 unless it is the shipment's sender, and with 400 (shipment unchanged)
unless the shipment is pending; an admin caller is never rejected by those
role checks — it never gets 403, a 400 for an admin arises only from a
dangling `driverId` hitting the `shipments.driver_id` foreign key — and an
admin status change whose written row satisfies the table constraints is
applied whatever the shipment's current status. -/
theorem C5_update_authorization (db : ShipDB) (now : ℤ) (r : UpdateReq)
    (s : Shipment) (hfind : findShipment db r.id = some s) :
    (r.userRole = "user" → s.sender_id ≠ r.userId →
      updateShipmentOp db now r = (403, db)) ∧
    (r.userRole = "user" → s.sender_id = r.userId → s.status ≠ "pending" →
      updateShipmentOp db now r = (400, db)) ∧
    (r.userRole = "admin" →
      (updateShipmentOp db now r).1 ≠ 403 ∧
      ((updateShipmentOp db now r).1 = 400 →
        updateShipmentOp db now r = (400, db) ∧
        ∃ d, r.driverId = some d ∧ db.drivers.contains d = false)) ∧
    (r.userRole = "admin" → ∀ v, r.status = some v →
      validFullShipmentRow (buildUpdatedShipment db.pricing now s r) = true →
      driverIdFkOk db r = true →
      updateShipmentOp db now r =
        (200, { db with
          shipments := db.shipments.map (fun t =>
            if t.id = r.id then buildUpdatedShipment db.pricing now s r else t)
          events := db.events ++
            [updateTrackingEvent (buildUpdatedShipment db.pricing now s r) r v] }) ∧
      (buildUpdatedShipment db.pricing now s r).status = v) := by
  refine ⟨?_, ?_, ?_, ?_⟩
  · intro hrole hneq
    simp only [updateShipmentOp, hfind]
    rw [if_pos (And.intro hrole hneq)]
  · intro hrole heq hst
    simp only [updateShipmentOp, hfind]
    rw [if_neg (fun h => h.2 heq), if_pos (And.intro hrole hst)]
  · intro hrole
    have hnu : r.userRole ≠ "user" := by rw [hrole]; decide
    simp only [updateShipmentOp, hfind]
    rw [if_neg (fun h => hnu h.1), if_neg (fun h => hnu h.1)]
    split
    · split
      case isTrue hfk =>
        refine ⟨?_, ?_⟩
        · match r.status with
          | some v => simp
          | none => simp
        · match r.status with
          | some v => intro h400; exact absurd h400 (by simp)
          | none => intro h400; exact absurd h400 (by simp)
      case isFalse hfk =>
        refine ⟨by simp, fun _ => ⟨rfl, ?_⟩⟩
        rw [driverIdFkOk] at hfk
        cases hd : r.driverId with
        | none => rw [hd] at hfk; simp at hfk
        | some d =>
          rw [hd, hrole] at hfk
          simp only [if_pos rfl] at hfk
          simp only [Bool.not_eq_true] at hfk
          exact ⟨d, rfl, hfk⟩
    · exact ⟨by simp, fun h400 => absurd h400 (by simp)⟩
  · intro hrole v hv hvalid hfk
    have hnu : r.userRole ≠ "user" := by rw [hrole]; decide
    constructor
    · simp only [updateShipmentOp, hfind]
      rw [if_neg (fun h => hnu h.1), if_neg (fun h => hnu h.1), if_pos hvalid,
        if_pos hfk, hv]
    · rw [buildUpdatedShipment]
      simp only [hv, hrole]
      rfl

theorem C5_witness :
    findShipment dbPending adminStatusUpdateReq.id = some pendingShipment ∧
    validFullShipmentRow
      (buildUpdatedShipment dbPending.pricing 1 pendingShipment adminStatusUpdateReq) = true ∧
    driverIdFkOk dbPending adminStatusUpdateReq = true ∧
    updateShipmentOp dbPending 1 adminStatusUpdateReq =
      (200, { dbPending with
        shipments := dbPending.shipments.map (fun t =>
          if t.id = adminStatusUpdateReq.id then
            buildUpdatedShipment dbPending.pricing 1 pendingShipment adminStatusUpdateReq
          else t)
        events := dbPending.events ++
          [updateTrackingEvent
            (buildUpdatedShipment dbPending.pricing 1 pendingShipment adminStatusUpdateReq)
            adminStatusUpdateReq "in_transit"] }) ∧
    (buildUpdatedShipment dbPending.pricing 1 pendingShipment adminStatusUpdateReq).status =
      "in_transit" := by
  refine ⟨by decide, by decide, by decide, ?_⟩
  exact (C5_update_authorization dbPending 1 adminStatusUpdateReq pendingShipment
    (by decide)).2.2.2 rfl "in_transit" rfl (by decide) (by decide)

/-! ## Cancellation (claim C10) -/

/-- C10: `cancelShipment` responds 403 to unauthorized callers; for an
authorized caller (the sender or an admin) it responds 400 and leaves the
state unchanged when the shipment is delivered or cancelled, and otherwise
(any other status, `in_transit` included) sets the status to `'cancelled'`
and appends exactly one tracking event. -/
theorem C10_cancel_gating (db : ShipDB) (now : ℤ) (r : CancelReq)
    (s : Shipment) (hfind : findShipment db r.id = some s) :
    (s.sender_id ≠ r.userId → r.userRole ≠ "admin" →
      cancelShipmentOp db now r = (403, db)) ∧
    (s.sender_id = r.userId ∨ r.userRole = "admin" →
      (s.status = "delivered" ∨ s.status = "cancelled" →
        cancelShipmentOp db now r = (400, db)) ∧
      (s.status ≠ "delivered" → s.status ≠ "cancelled" →
        paymentStatusList.contains s.payment_status = true →
        cancelShipmentOp db now r =
          (200, { db with
            shipments := db.shipments.map (fun t =>
              if t.id = r.id then cancelledShipment now s r else t)
            events := db.events ++ [cancelTrackingEvent r] }) ∧
        (cancelledShipment now s r).status = "cancelled")) := by
  constructor
  · intro h1 h2
    simp only [cancelShipmentOp, hfind]
    rw [if_pos (And.intro h1 h2)]
  · intro hauth
    have hnneg : ¬ (s.sender_id ≠ r.userId ∧ r.userRole ≠ "admin") := by
      rcases hauth with h | h
      · exact fun hc => hc.1 h
      · exact fun hc => hc.2 h
    constructor
    · intro hst
      simp only [cancelShipmentOp, hfind]
      rw [if_neg hnneg, if_pos hst]
    · intro hd hc hpay
      have hvalid : validShipmentRow (cancelledShipment now s r) = true := by
        have h1 : (cancelledShipment now s r).status = "cancelled" := rfl
        have h2 : (cancelledShipment now s r).payment_status = s.payment_status := rfl
        rw [validShipmentRow, h1, h2, Bool.and_eq_true]
        exact ⟨by decide, hpay⟩
      simp only [cancelShipmentOp, hfind]
      rw [if_neg hnneg, if_neg (fun h => h.elim hd hc), if_pos hvalid]
      exact ⟨rfl, rfl⟩

theorem C10_witness :
    findShipment dbPending senderCancelReq.id = some pendingShipment ∧
    cancelShipmentOp dbPending 1 senderCancelReq =
      (200, { dbPending with
        shipments := dbPending.shipments.map (fun t =>
          if t.id = senderCancelReq.id then cancelledShipment 1 pendingShipment senderCancelReq
          else t)
        events := dbPending.events ++ [cancelTrackingEvent senderCancelReq] }) ∧
    (cancelledShipment 1 pendingShipment senderCancelReq).status = "cancelled" := by
  refine ⟨by decide, ?_⟩
  exact ((C10_cancel_gating dbPending 1 senderCancelReq pendingShipment
    (by decide)).2 (Or.inl rfl)).2 (by decide) (by decide) (by decide)

/-! ## Tracking events and transitions (claim C6) -/

/-- C6 as stated is false: a `'user'`-role sender updating its own pending
shipment with a status in the body gets HTTP 200, the status write is skipped
(`updates.status && req.userRole !== 'user'`), so no transition occurs — yet
the `if (updates.status)` guard still appends a tracking event. -/
theorem C6_counterexample :
    (updateShipmentOp dbPending 1 userStatusUpdateReq).1 = 200 ∧
    shipStatuses (updateShipmentOp dbPending 1 userStatusUpdateReq).2 =
      shipStatuses dbPending ∧
    (updateShipmentOp dbPending 1 userStatusUpdateReq).2.events.length =
      dbPending.events.length + 1 := by decide

/-- Rows with the same id are equal when the id column is duplicate-free. -/
theorem findShipment_unique {db : ShipDB} {id : String} {s t : Shipment}
    (hnd : (db.shipments.map Shipment.id).Nodup)
    (hfind : findShipment db id = some s)
    (ht : t ∈ db.shipments) (hid : t.id = id) : t = s := by
  have hsmem : s ∈ db.shipments := List.mem_of_find?_eq_some hfind
  have hsid : s.id = id := by
    have := List.find?_some hfind
    simpa using this
  exact List.inj_on_of_nodup_map hnd ht hsmem (by rw [hid, hsid])

/-- C6 (amended): every shipment status transition effected by an update, a
cancellation, or a payment webhook appends exactly one tracking-event record,
and no request appends more than one; however, a tracking event can also be
appended when no transition occurs (an update request whose body carries a
status appends an event even when the status write is skipped, and the
Paystack webhook appends one although its shipment update is rejected). -/
theorem C6_transition_tracking (db : ShipDB) (now : ℤ) (ru : UpdateReq)
    (rx : CancelReq) (rs : StripeWebhookReq) (rp : PaystackWebhookReq)
    (hnd : (db.shipments.map Shipment.id).Nodup) :
    (shipStatuses (updateShipmentOp db now ru).2 ≠ shipStatuses db →
      ∃ e, (updateShipmentOp db now ru).2.events = db.events ++ [e]) ∧
    ((updateShipmentOp db now ru).2.events = db.events ∨
      ∃ e, (updateShipmentOp db now ru).2.events = db.events ++ [e]) ∧
    (shipStatuses (cancelShipmentOp db now rx).2 ≠ shipStatuses db →
      ∃ e, (cancelShipmentOp db now rx).2.events = db.events ++ [e]) ∧
    ((cancelShipmentOp db now rx).2.events = db.events ∨
      ∃ e, (cancelShipmentOp db now rx).2.events = db.events ++ [e]) ∧
    (shipStatuses (handleStripeWebhookOp db now rs).2 ≠ shipStatuses db →
      ∃ e, (handleStripeWebhookOp db now rs).2.events = db.events ++ [e]) ∧
    ((handleStripeWebhookOp db now rs).2.events = db.events ∨
      ∃ e, (handleStripeWebhookOp db now rs).2.events = db.events ++ [e]) ∧
    (shipStatuses (handlePaystackWebhookOp db now rp).2 ≠ shipStatuses db →
      ∃ e, (handlePaystackWebhookOp db now rp).2.events = db.events ++ [e]) ∧
    ((handlePaystackWebhookOp db now rp).2.events = db.events ∨
      ∃ e, (handlePaystackWebhookOp db now rp).2.events = db.events ++ [e]) := by
  have hupdate : (shipStatuses (updateShipmentOp db now ru).2 ≠ shipStatuses db →
      ∃ e, (updateShipmentOp db now ru).2.events = db.events ++ [e]) ∧
      ((updateShipmentOp db now ru).2.events = db.events ∨
        ∃ e, (updateShipmentOp db now ru).2.events = db.events ++ [e]) := by
    simp only [updateShipmentOp]
    match hf : findShipment db ru.id with
    | none => exact ⟨fun h => absurd rfl h, Or.inl rfl⟩
    | some s =>
      simp only
      split
      · exact ⟨fun h => absurd rfl h, Or.inl rfl⟩
      · split
        · exact ⟨fun h => absurd rfl h, Or.inl rfl⟩
        · split
          case isTrue hvalid =>
            split
            case isTrue hfk =>
              match hs : ru.status with
              | some v =>
                exact ⟨fun _ => ⟨_, rfl⟩, Or.inr ⟨_, rfl⟩⟩
              | none =>
                have hstat : shipStatuses
                    { db with shipments := db.shipments.map (fun t =>
                        if t.id = ru.id then buildUpdatedShipment db.pricing now s ru else t) } =
                    shipStatuses db := by
                  rw [shipStatuses, shipStatuses]
                  simp only [List.map_map]
                  refine List.map_congr_left ?_
                  intro t ht
                  simp only [Function.comp_apply]
                  by_cases hid : t.id = ru.id
                  · rw [if_pos hid]
                    have hts : t = s := findShipment_unique hnd hf ht hid
                    have hbs : (buildUpdatedShipment db.pricing now s ru).status = s.status := by
                      rw [buildUpdatedShipment]
                      simp only [hs]
                    rw [hbs, hts]
                  · rw [if_neg hid]
                exact ⟨fun h => absurd hstat h, Or.inl rfl⟩
            case isFalse hfk =>
              exact ⟨fun h => absurd rfl h, Or.inl rfl⟩
          case isFalse =>
            exact ⟨fun h => absurd rfl h, Or.inl rfl⟩
  have hcancel : (shipStatuses (cancelShipmentOp db now rx).2 ≠ shipStatuses db →
      ∃ e, (cancelShipmentOp db now rx).2.events = db.events ++ [e]) ∧
      ((cancelShipmentOp db now rx).2.events = db.events ∨
        ∃ e, (cancelShipmentOp db now rx).2.events = db.events ++ [e]) := by
    simp only [cancelShipmentOp]
    match hf : findShipment db rx.id with
    | none => exact ⟨fun h => absurd rfl h, Or.inl rfl⟩
    | some s =>
      simp only
      split
      · exact ⟨fun h => absurd rfl h, Or.inl rfl⟩
      · split
        · exact ⟨fun h => absurd rfl h, Or.inl rfl⟩
        · split
          · exact ⟨fun _ => ⟨_, rfl⟩, Or.inr ⟨_, rfl⟩⟩
          · exact ⟨fun h => absurd rfl h, Or.inl rfl⟩
  have hstripe : (shipStatuses (handleStripeWebhookOp db now rs).2 ≠ shipStatuses db →
      ∃ e, (handleStripeWebhookOp db now rs).2.events = db.events ++ [e]) ∧
      ((handleStripeWebhookOp db now rs).2.events = db.events ∨
        ∃ e, (handleStripeWebhookOp db now rs).2.events = db.events ++ [e]) := by
    simp only [handleStripeWebhookOp]
    split
    · exact ⟨fun h => absurd rfl h, Or.inl rfl⟩
    · split
      · exact ⟨fun _ => ⟨_, rfl⟩, Or.inr ⟨_, rfl⟩⟩
      · exact ⟨fun h => absurd rfl h, Or.inl rfl⟩
  have hpaystack : (shipStatuses (handlePaystackWebhookOp db now rp).2 ≠ shipStatuses db →
      ∃ e, (handlePaystackWebhookOp db now rp).2.events = db.events ++ [e]) ∧
      ((handlePaystackWebhookOp db now rp).2.events = db.events ∨
        ∃ e, (handlePaystackWebhookOp db now rp).2.events = db.events ++ [e]) := by
    simp only [handlePaystackWebhookOp]
    split
    · exact ⟨fun h => absurd rfl h, Or.inl rfl⟩
    · split
      · match rp.shipmentId with
        | none => exact ⟨fun h => absurd rfl h, Or.inl rfl⟩
        | some sid => exact ⟨fun _ => ⟨_, rfl⟩, Or.inr ⟨_, rfl⟩⟩
      · exact ⟨fun h => absurd rfl h, Or.inl rfl⟩
  exact ⟨hupdate.1, hupdate.2, hcancel.1, hcancel.2, hstripe.1, hstripe.2,
    hpaystack.1, hpaystack.2⟩

theorem C6_witness :
    ∃ e, (cancelShipmentOp dbPending 1 senderCancelReq).2.events =
      dbPending.events ++ [e] :=
  (C6_transition_tracking dbPending 1 userStatusUpdateReq senderCancelReq
    stripeSuccessReq paystackSuccessReq (by decide)).2.2.1 (by decide)

/-! ## Payment webhooks (claim C7) -/

/-- C7 fails on the Paystack path: on a signature-verified `charge.success`
with a shipment id, the payment row is marked succeeded and one tracking
event is appended, but the shipment UPDATE writes `status: 'confirmed'`,
which the `shipments.status` CHECK constraint rejects — so the shipment row
is left unchanged and its `payment_status` never becomes `'paid'`, contrary
to the claim (and to the handler's own tracking-event text `"Payment
verified via webhook. Shipment confirmed."`).  The bad-signature path does
respond 401 with no state change, as claimed. -/
theorem C7_paystack_webhook_bug :
    handlePaystackWebhookOp dbPending 1 { paystackSuccessReq with sigValid := false } =
      (401, dbPending) ∧
    (handlePaystackWebhookOp dbPending 1 paystackSuccessReq).1 = 200 ∧
    (handlePaystackWebhookOp dbPending 1 paystackSuccessReq).2.payments.map
      Payment.status = ["succeeded"] ∧
    (handlePaystackWebhookOp dbPending 1 paystackSuccessReq).2.shipments =
      dbPending.shipments ∧
    pendingShipment.payment_status = "unpaid" ∧
    (handlePaystackWebhookOp dbPending 1 paystackSuccessReq).2.events =
      [paystackTrackingEvent "s1"] := by decide
